import Mathlib

/-!
Verification of the inlet/outlet boundary-management example
(`pysph/examples/trivial_inlet_outlet.py`) against its design specification.

The example file configures the inlet/outlet subsystem; the subsystem itself
(`InletUpdater`/`OutletUpdater`/`BoundaryManager` operations `refill`,
`advance`, `promote`, `absorb`, `purge`, `step`) lives in the pysph library
modules `pysph.sph.bc.inlet_outlet_manager` and `pysph.sph.bc.donothing.*`,
which are not part of the example source.  Those operations are therefore
modelled from the specification text; the concrete configuration (grid of
initial particles, zone planes, normals, property-copy list) is embedded
directly from the example source.

All scalar quantities are modelled as exact rationals.
-/

namespace PySph

/-- A 3-vector of rational coordinates. -/
structure Vec3 where
  x : ℚ
  y : ℚ
  z : ℚ
deriving DecidableEq, Repr

/-- Dot product of two 3-vectors. -/
def dot (a b : Vec3) : ℚ := a.x * b.x + a.y * b.y + a.z * b.z

/-- Componentwise difference of two 3-vectors. -/
def vsub (a b : Vec3) : Vec3 := ⟨a.x - b.x, a.y - b.y, a.z - b.z⟩

/-- The property columns a particle carries in this example: the base
columns (position `x y z`, velocity `u v w`, mass `m`, smoothing length `h`,
density `rho`, pressure `p`) plus the three extra columns the example adds
(`ioid`, `disp`, `x0`). -/
inductive PName where
  | x | y | z | u | v | w | m | h | rho | p | ioid | disp | x0
deriving DecidableEq, Repr

/-- One particle: a record with one rational value per property column. -/
structure Particle where
  x : ℚ
  y : ℚ
  z : ℚ
  u : ℚ
  v : ℚ
  w : ℚ
  m : ℚ
  h : ℚ
  rho : ℚ
  p : ℚ
  ioid : ℚ
  disp : ℚ
  x0 : ℚ
deriving DecidableEq, Repr

/-- Read a particle's property by name. -/
def Particle.get (pt : Particle) : PName → ℚ
  | PName.x => pt.x
  | PName.y => pt.y
  | PName.z => pt.z
  | PName.u => pt.u
  | PName.v => pt.v
  | PName.w => pt.w
  | PName.m => pt.m
  | PName.h => pt.h
  | PName.rho => pt.rho
  | PName.p => pt.p
  | PName.ioid => pt.ioid
  | PName.disp => pt.disp
  | PName.x0 => pt.x0

/-- The particle with every property at its default value (zero). -/
def defaultParticle : Particle :=
  ⟨0, 0, 0, 0, 0, 0, 0, 0, 0, 0, 0, 0, 0⟩

/-- A particle's position as a vector. -/
def Particle.pos (pt : Particle) : Vec3 := ⟨pt.x, pt.y, pt.z⟩

/-- Modelled from the spec: `ZoneDescriptor`, the immutable per-zone
configuration — a point on the boundary plane, the outward normal, and the
zone depth (the class itself lives in `pysph.sph.bc.inlet_outlet_manager`,
not in the example source). -/
structure ZoneDescriptor where
  refpoint : Vec3
  normal : Vec3
  depth : ℚ
deriving DecidableEq, Repr

/-- Modelled from the spec: the signed distance of a position from a zone's
reference plane, `d = dot(position - referencePoint, normal)`. -/
def signedDistance (zd : ZoneDescriptor) (pos : Vec3) : ℚ :=
  dot (vsub pos zd.refpoint) zd.normal

/-- Modelled from the spec: zone membership, `0 ≤ d < depth`. -/
def isInside (zd : ZoneDescriptor) (pos : Vec3) : Bool :=
  decide (0 ≤ signedDistance zd pos) && decide (signedDistance zd pos < zd.depth)

/-! ### The example's zone configuration

Embedded from `_create_inlet_outlet_manager` in the example source:
the inlet plane has `refpoint = (0,0,0)` and `normal = (-1,0,0)`; the
outlet plane has `refpoint = (1,0,0)` and `normal = (1,0,0)`. -/

/-- The inlet-zone normal from the example source, `[-1.0, 0.0, 0.0]`. -/
def inletNormal : Vec3 := ⟨-1, 0, 0⟩

/-- The inlet-zone reference point from the example source, `[0.0, 0.0, 0.0]`. -/
def inletRefpoint : Vec3 := ⟨0, 0, 0⟩

/-- The example's inlet zone, with the given depth (the inlet block occupies
`(-1,0)×(0,1)`, so its depth is `1`). -/
def exampleInletZone (depth : ℚ) : ZoneDescriptor :=
  ⟨inletRefpoint, inletNormal, depth⟩

/-- The outlet-zone normal from the example source, `[1.0, 0.0, 0.0]`. -/
def outletNormal : Vec3 := ⟨1, 0, 0⟩

/-- The outlet-zone reference point from the example source, `[1.0, 0.0, 0.0]`. -/
def outletRefpoint : Vec3 := ⟨1, 0, 0⟩

/-- The example's outlet zone, with the given depth (the outlet block
occupies `(1,2)×(0,1)`, so its depth is `1`). -/
def exampleOutletZone (depth : ℚ) : ZoneDescriptor :=
  ⟨outletRefpoint, outletNormal, depth⟩

/-- The property-copy list from the example source:
`['x', 'y', 'z', 'u', 'v', 'w', 'm', 'h', 'rho', 'p', 'ioid']`. -/
def examplePropsToCopy : List PName :=
  [PName.x, PName.y, PName.z, PName.u, PName.v, PName.w, PName.m,
   PName.h, PName.rho, PName.p, PName.ioid]

/-! ### The example's initial particle grid

Embedded from `create_particles` in the example source:
`dx = 0.1`, `x, y = np.mgrid[-1+dx/2 : 0 : dx, 0 : 1 : dx]`. -/

/-- The particle spacing `dx = 0.1` from the example source. -/
def dxSpacing : ℚ := 1 / 10

/-- A `numpy.arange`-style half-open range of rationals: the values
`start + i*step` for `0 ≤ i < ⌈(stop - start) / step⌉` (the element count
numpy uses for a positive step). -/
def arangeQ (start stop step : ℚ) : List ℚ :=
  (List.range (⌈(stop - start) / step⌉).toNat).map
    (fun i : ℕ => start + (i : ℚ) * step)

/-- The inlet grid x-coordinates, `np.mgrid[-1+dx/2 : 0 : dx]`. -/
def inletXs : List ℚ := arangeQ (-1 + dxSpacing / 2) 0 dxSpacing

/-- The inlet grid y-coordinates, `np.mgrid[0 : 1 : dx]`. -/
def inletYs : List ℚ := arangeQ 0 1 dxSpacing

/-- The positions of the initially created inlet particles: the 2-D grid of
`inletXs × inletYs` at `z = 0`, in row-major (x-outer) order as produced by
`np.mgrid`. -/
def inletPositions : List Vec3 :=
  inletXs.flatMap (fun xv => inletYs.map (fun yv => ⟨xv, yv, 0⟩))

/-- The positions of the initially created outlet particles: the inlet grid
shifted by `x += 2.0`, as in the example source. -/
def outletPositions : List Vec3 :=
  inletPositions.map (fun pos => ⟨pos.x + 2, pos.y, pos.z⟩)

/-- One grid particle as created by `create_particles`: position from the
grid, `u` equal to the configured speed, `m = dx*dx`, `h = dx*1.5`,
`rho = 1`; every other column is left at its default (zero). -/
def mkGridParticle (speed : ℚ) (pos : Vec3) : Particle :=
  ⟨pos.x, pos.y, pos.z, speed, 0, 0, dxSpacing * dxSpacing,
   dxSpacing * (3 / 2), 1, 0, 0, 0, 0⟩

/-! ### Particle arrays and `create_particles` -/

/-- A named particle array: name, schema (the list of property columns it
carries), and its particles. -/
structure ParticleArray where
  pname : String
  props : List PName
  particles : List Particle
deriving DecidableEq, Repr

/-- Modelled from the spec: the base columnar schema every collection starts
with (position, velocity, mass, smoothing length, density, pressure) — the
default properties of `pysph.base.utils.get_particle_array`, which is not in
the example source. -/
def defaultProps : List PName :=
  [PName.x, PName.y, PName.z, PName.u, PName.v, PName.w,
   PName.m, PName.h, PName.rho, PName.p]

/-- Modelled from the spec: `get_particle_array` creates a named collection
with the base schema and the given particles. -/
def get_particle_array (nm : String) (parts : List Particle) : ParticleArray :=
  ⟨nm, defaultProps, parts⟩

/-- Modelled from the spec: dynamically adding a property column to a
collection's schema (`pa.add_property(p)`); adding an existing column is a
no-op. -/
def addProperty (pa : ParticleArray) (q : PName) : ParticleArray :=
  if q ∈ pa.props then pa else ⟨pa.pname, pa.props ++ [q], pa.particles⟩

/-- The extra property columns the example adds to every array:
`['ioid', 'disp', 'x0']`. -/
def extraProps : List PName := [PName.ioid, PName.disp, PName.x0]

/-- Embedding of `create_particles` from the example source: an empty `fluid` array, an
`inlet` array on the grid, an `outlet` array on the grid shifted by `+2` in
`x`, returned as `[inlet, fluid, outlet]` after adding the three extra
property columns to each. -/
def create_particles (speed : ℚ) : List ParticleArray :=
  let fluid := get_particle_array "fluid" []
  let inlet := get_particle_array "inlet" (inletPositions.map (mkGridParticle speed))
  let outletArr := get_particle_array "outlet" (outletPositions.map (mkGridParticle speed))
  let particles := [inlet, fluid, outletArr]
  extraProps.foldl (fun pas q => pas.map (fun pa => addProperty pa q)) particles

/-! ### Lifecycle operations (modelled from the spec)

The updater classes (`pysph.sph.bc.donothing.inlet.Inlet`,
`pysph.sph.bc.donothing.outlet.Outlet`, `SimpleInletOutlet`) are not part of
the example source; the operations below are modelled from the
specification's description of `refill`, `advance`, `promote`, `absorb`,
`purge` and `step`. -/

/-- Modelled from the spec: a promoted particle keeps its physical state but
has its `disp`/`ioid` scratch columns cleared for the fluid schema. -/
def clearTransfer (pt : Particle) : Particle :=
  { pt with disp := 0, ioid := 0 }

/-- Modelled from the spec: an inlet particle qualifies for promotion when
`d ≥ depth`. -/
def promoteCond (zd : ZoneDescriptor) (pt : Particle) : Bool :=
  decide (zd.depth ≤ signedDistance zd pt.pos)

/-- Modelled from the spec: `InletUpdater.promote()` — every inlet particle
with `d ≥ depth` is moved (in original order) into the fluid collection with
`disp`/`ioid` cleared; the rest remain in the inlet collection. -/
def promote (zd : ZoneDescriptor) (inletPa fluidPa : List Particle) :
    List Particle × List Particle :=
  (inletPa.filter (fun pt => ! promoteCond zd pt),
   fluidPa ++ (inletPa.filter (promoteCond zd)).map clearTransfer)

/-- Modelled from the spec: build the new outlet entry for an absorbed fluid
particle — each property named in the copy list is taken from the source
particle, every other property stays at its default. -/
def copyProps (props : List PName) (src : Particle) : Particle :=
  ⟨if PName.x ∈ props then src.x else defaultParticle.x,
   if PName.y ∈ props then src.y else defaultParticle.y,
   if PName.z ∈ props then src.z else defaultParticle.z,
   if PName.u ∈ props then src.u else defaultParticle.u,
   if PName.v ∈ props then src.v else defaultParticle.v,
   if PName.w ∈ props then src.w else defaultParticle.w,
   if PName.m ∈ props then src.m else defaultParticle.m,
   if PName.h ∈ props then src.h else defaultParticle.h,
   if PName.rho ∈ props then src.rho else defaultParticle.rho,
   if PName.p ∈ props then src.p else defaultParticle.p,
   if PName.ioid ∈ props then src.ioid else defaultParticle.ioid,
   if PName.disp ∈ props then src.disp else defaultParticle.disp,
   if PName.x0 ∈ props then src.x0 else defaultParticle.x0⟩

/-- Modelled from the spec: a fluid particle qualifies for absorption when
its distance from the outlet's reference plane satisfies `d ≥ 0`. -/
def absorbCond (zd : ZoneDescriptor) (pt : Particle) : Bool :=
  decide (0 ≤ signedDistance zd pt.pos)

/-- Modelled from the spec: `OutletUpdater.absorb()` — every monitored fluid
particle with `d ≥ 0` gets a newly created outlet entry carrying the
configured property subset, and is removed from the fluid collection. -/
def absorb (zd : ZoneDescriptor) (props : List PName)
    (fluidPa outletPa : List Particle) : List Particle × List Particle :=
  (fluidPa.filter (fun pt => ! absorbCond zd pt),
   outletPa ++ (fluidPa.filter (absorbCond zd)).map (copyProps props))

/-- Modelled from the spec: an outlet particle is destroyed once `d ≥ depth`
(it has fully exited the outlet zone). -/
def purgeCond (zd : ZoneDescriptor) (pt : Particle) : Bool :=
  decide (zd.depth ≤ signedDistance zd pt.pos)

/-- Modelled from the spec: `OutletUpdater.purge()` — deletes every outlet
particle that has fully exited the outlet zone. -/
def purge (zd : ZoneDescriptor) (outletPa : List Particle) : List Particle :=
  outletPa.filter (fun pt => ! purgeCond zd pt)

/-- Modelled from the spec: `advance(displacement)` — the prescribed
kinematic motion of boundary particles over one step of size `dt`: position
moves by `dt` times the particle's velocity and the streamwise displacement
accumulator grows accordingly. -/
def advance (dt : ℚ) (pa : List Particle) : List Particle :=
  pa.map (fun pt =>
    { pt with
      x := pt.x + dt * pt.u, y := pt.y + dt * pt.v, z := pt.z + dt * pt.w,
      disp := pt.disp + dt * pt.u })

/-- Modelled from the spec: the per-inlet refill configuration — the nominal
geometric slots of the inlet zone and the prescribed velocity, mass,
smoothing length, density and zone id of freshly created particles. -/
structure InletConfig where
  slots : List Vec3
  u0 : ℚ
  v0 : ℚ
  w0 : ℚ
  m0 : ℚ
  h0 : ℚ
  rho0 : ℚ
  zoneId : ℚ

/-- Modelled from the spec: a freshly created inlet particle sits at its
slot, carries the configured velocity, mass, smoothing length and density,
is tagged with the zone id, and has zero accumulated displacement. -/
def mkInletParticle (c : InletConfig) (s : Vec3) : Particle :=
  ⟨s.x, s.y, s.z, c.u0, c.v0, c.w0, c.m0, c.h0, c.rho0, 0, c.zoneId, 0, s.x⟩

/-- A geometric slot is occupied when some particle of the collection sits
exactly at it. -/
def occupied (pa : List Particle) (s : Vec3) : Bool :=
  pa.any (fun pt => decide (pt.pos = s))

/-- Modelled from the spec: `InletUpdater.refill()` — compares the current
occupancy of the nominal slots with the collection and creates a new
particle at every unoccupied slot (never double-filling an occupied one). -/
def refill (c : InletConfig) (inletPa : List Particle) : List Particle :=
  inletPa ++ (c.slots.filter (fun s => ! occupied inletPa s)).map (mkInletParticle c)

/-! ### The `BoundaryManager.step()` orchestration (modelled from the spec) -/

/-- The collections managed during one step. -/
structure SimState where
  inletPa : List Particle
  fluidPa : List Particle
  outletPa : List Particle
deriving DecidableEq, Repr

/-- The whole-step configuration for the example's single inlet and single
outlet. -/
structure BMConfig where
  inletCfg : InletConfig
  inletZone : ZoneDescriptor
  outletZone : ZoneDescriptor
  propsToCopy : List PName
  dt : ℚ

/-- Modelled from the spec: one `BoundaryManager.step()` — refill, advance
(inlet and outlet), promote, absorb, purge, in that fixed order — returning
the updated collections together with the number of particles created by the
refill and the number destroyed by the purge. -/
def stepWithCounts (cfg : BMConfig) (s : SimState) : SimState × Nat × Nat :=
  let i1 := refill cfg.inletCfg s.inletPa
  let created := i1.length - s.inletPa.length
  let i2 := advance cfg.dt i1
  let o2 := advance cfg.dt s.outletPa
  let pf := promote cfg.inletZone i2 s.fluidPa
  let fo := absorb cfg.outletZone cfg.propsToCopy pf.2 o2
  let o5 := purge cfg.outletZone fo.2
  let destroyed := fo.2.length - o5.length
  (⟨pf.1, fo.1, o5⟩, created, destroyed)

/-- The total number of particles currently in the three collections. -/
def totalCount (s : SimState) : Nat :=
  s.inletPa.length + s.fluidPa.length + s.outletPa.length

/-- The six phases a `BoundaryManager.step()` runs. -/
inductive PhaseTag where
  | refill | advanceInlet | advanceOutlet | promote | absorb | purge
deriving DecidableEq, Repr

/-- The fixed rank of each phase within a step. -/
def phaseRank : PhaseTag → Nat
  | PhaseTag.refill => 0
  | PhaseTag.advanceInlet => 1
  | PhaseTag.advanceOutlet => 2
  | PhaseTag.promote => 3
  | PhaseTag.absorb => 4
  | PhaseTag.purge => 5

/-- Modelled from the spec: the schedule of phase invocations one
`BoundaryManager.step()` performs for `nIn` inlets and `nOut` outlets — all
refills, then all advances, then all promotions, then all absorbs, then all
purges, each phase iterating over its updaters in registration order. -/
def stepSchedule (nIn nOut : Nat) : List (PhaseTag × Nat) :=
  (List.range nIn).map (fun i => (PhaseTag.refill, i))
  ++ (List.range nIn).map (fun i => (PhaseTag.advanceInlet, i))
  ++ (List.range nOut).map (fun i => (PhaseTag.advanceOutlet, i))
  ++ (List.range nIn).map (fun i => (PhaseTag.promote, i))
  ++ (List.range nOut).map (fun i => (PhaseTag.absorb, i))
  ++ (List.range nOut).map (fun i => (PhaseTag.purge, i))

/-! ### Helper lemmas -/

/-- Splitting a list by a Boolean predicate preserves its length. -/
lemma length_filter_not_add {α : Type} (p : α → Bool) (l : List α) :
    (l.filter (fun a => ! p a)).length + (l.filter p).length = l.length := by
  induction l with
  | nil => rfl
  | cons a t ih => by_cases hpa : p a <;> simp [hpa, List.filter_cons] <;> omega

/-- The operation `promote` only moves particles between the two collections: the total
count is unchanged. -/
lemma promote_length (zd : ZoneDescriptor) (inletPa fluidPa : List Particle) :
    (promote zd inletPa fluidPa).1.length + (promote zd inletPa fluidPa).2.length =
      inletPa.length + fluidPa.length := by
  have h := length_filter_not_add (promoteCond zd) inletPa
  simp only [promote, List.length_append, List.length_map]
  omega

/-- The operation `absorb` only moves particles between the two collections: the total
count is unchanged. -/
lemma absorb_length (zd : ZoneDescriptor) (props : List PName)
    (fluidPa outletPa : List Particle) :
    (absorb zd props fluidPa outletPa).1.length +
      (absorb zd props fluidPa outletPa).2.length =
      fluidPa.length + outletPa.length := by
  have h := length_filter_not_add (absorbCond zd) fluidPa
  simp only [absorb, List.length_append, List.length_map]
  omega

/-- The operation `refill` adds exactly the particles created at the unoccupied slots. -/
lemma refill_length (c : InletConfig) (inletPa : List Particle) :
    (refill c inletPa).length =
      inletPa.length + (c.slots.filter (fun s => ! occupied inletPa s)).length := by
  simp [refill]

/-- The operation `advance` preserves the number of particles. -/
lemma advance_length (dt : ℚ) (pa : List Particle) :
    (advance dt pa).length = pa.length := by
  simp [advance]

/-- On the example's inlet plane (reference point `(0,0,0)`, normal
`(-1,0,0)`) the signed distance of any position is `-x`. -/
lemma inlet_signedDistance (depth : ℚ) (pos : Vec3) :
    signedDistance (exampleInletZone depth) pos = -pos.x := by
  simp [signedDistance, dot, vsub, exampleInletZone, inletNormal, inletRefpoint]

/-- On the example's outlet plane (reference point `(1,0,0)`, normal
`(1,0,0)`) the signed distance of any position is `x - 1`. -/
lemma outlet_signedDistance (depth : ℚ) (pos : Vec3) :
    signedDistance (exampleOutletZone depth) pos = pos.x - 1 := by
  simp [signedDistance, dot, vsub, exampleOutletZone, outletNormal, outletRefpoint]

/-! ### Claim theorems -/

/-- C4: when a fluid particle is absorbed into an outlet, exactly the
properties named in that outlet's copy list are transferred to the new
outlet particle and every other property is left at its default (so an
outlet whose copy list excludes pressure leaves the outlet particle's
pressure at the default); the example's copy list does include `p`. -/
theorem absorb_copy_list_exclusive (zd : ZoneDescriptor) (props : List PName)
    (fluidPa outletPa : List Particle) (src : Particle) :
    (∀ q : PName, (copyProps props src).get q =
      if q ∈ props then src.get q else defaultParticle.get q)
    ∧ (absorb zd props fluidPa outletPa).2 =
        outletPa ++ (fluidPa.filter (absorbCond zd)).map (copyProps props)
    ∧ PName.p ∈ examplePropsToCopy := by
  refine ⟨fun q => ?_, rfl, by simp [examplePropsToCopy]⟩
  cases q <;> rfl

/-- C7: `refill` is idempotent — a second `refill` with no intervening
`advance` finds every slot occupied and creates no further particles. -/
theorem refill_idempotent (c : InletConfig) (inletPa : List Particle) :
    refill c (refill c inletPa) = refill c inletPa := by
  have hnil : c.slots.filter (fun s => ! occupied (refill c inletPa) s) = [] := by
    rw [List.filter_eq_nil_iff]
    intro s hs
    simp only [Bool.not_eq_true', Bool.not_eq_false]
    by_cases hocc : occupied inletPa s = true
    · simp [refill, occupied, List.any_append] at hocc ⊢
      exact Or.inl hocc
    · have hmem : mkInletParticle c s ∈
          (c.slots.filter (fun t => ! occupied inletPa t)).map (mkInletParticle c) :=
        List.mem_map_of_mem _ (List.mem_filter.mpr ⟨hs, by simp [hocc]⟩)
      have hnew : occupied
          ((c.slots.filter (fun t => ! occupied inletPa t)).map (mkInletParticle c)) s
          = true := by
        rw [occupied, List.any_eq_true]
        exact ⟨mkInletParticle c s, hmem, by simp [mkInletParticle, Particle.pos]⟩
      simp [refill, occupied, List.any_append] at hnew ⊢
      exact Or.inr hnew
  show refill c inletPa ++
      (c.slots.filter (fun s => ! occupied (refill c inletPa) s)).map (mkInletParticle c)
    = refill c inletPa
  rw [hnil]
  simp

/-- C8: `promote` processes inlet particles in a stable order — the promoted
particles form a sublist of the inlet collection (ascending original index)
and are appended to the fluid collection in that order — and it is a pure
function, so identical input produces identical (bit-for-bit equal)
output. -/
theorem promote_order_stable (zd : ZoneDescriptor) (inletPa fluidPa : List Particle) :
    (inletPa.filter (promoteCond zd)).Sublist inletPa
    ∧ (promote zd inletPa fluidPa).2 =
        fluidPa ++ (inletPa.filter (promoteCond zd)).map clearTransfer
    ∧ ∀ inlet2 fluid2 : List Particle, inlet2 = inletPa → fluid2 = fluidPa →
        promote zd inlet2 fluid2 = promote zd inletPa fluidPa :=
  ⟨List.filter_sublist inletPa, rfl, fun _ _ h1 h2 => by rw [h1, h2]⟩

/-- A list is pairwise related by any relation that holds universally. -/
lemma pairwise_of_forall {α : Type} {R : α → α → Prop} (h : ∀ a b, R a b) :
    ∀ l : List α, l.Pairwise R
  | [] => List.Pairwise.nil
  | a :: t => List.Pairwise.cons (fun b _ => h a b) (pairwise_of_forall h t)

/-- Appending a block whose ranks dominate every rank of the prefix
preserves rank-monotonicity. -/
lemma pairwise_rank_append {L M : List (PhaseTag × Nat)} {k : Nat}
    (hL : L.Pairwise (fun a b => phaseRank a.1 ≤ phaseRank b.1))
    (hM : M.Pairwise (fun a b => phaseRank a.1 ≤ phaseRank b.1))
    (hLb : ∀ a ∈ L, phaseRank a.1 ≤ k) (hMb : ∀ b ∈ M, k ≤ phaseRank b.1) :
    (L ++ M).Pairwise (fun a b => phaseRank a.1 ≤ phaseRank b.1) :=
  List.pairwise_append.mpr
    ⟨hL, hM, fun a ha b hb => le_trans (hLb a ha) (hMb b hb)⟩

/-- Every element of one phase segment carries that segment's tag. -/
lemma mem_segment_fst {c : PhaseTag} {n : Nat} {a : PhaseTag × Nat}
    (ha : a ∈ (List.range n).map (fun i => (c, i))) : a.1 = c := by
  simp only [List.mem_map, List.mem_range] at ha
  obtain ⟨i, _, rfl⟩ := ha
  rfl

/-- Membership bound for an appended pair of segments. -/
lemma mem_append_rank_le {L M : List (PhaseTag × Nat)} {k : Nat}
    (hL : ∀ a ∈ L, phaseRank a.1 ≤ k) (hM : ∀ a ∈ M, phaseRank a.1 ≤ k) :
    ∀ a ∈ L ++ M, phaseRank a.1 ≤ k := by
  intro a ha
  rcases List.mem_append.mp ha with h | h
  · exact hL a h
  · exact hM a h

/-- The phase ranks along a step schedule are monotone: the schedule runs
its six phases in the fixed order refill, advance-inlet, advance-outlet,
promote, absorb, purge. -/
lemma schedule_rank_pairwise (nIn nOut : Nat) :
    (stepSchedule nIn nOut).Pairwise (fun a b => phaseRank a.1 ≤ phaseRank b.1) := by
  have htriv : ∀ (c : PhaseTag) (n : Nat),
      ((List.range n).map (fun i => (c, i))).Pairwise
        (fun a b : PhaseTag × Nat => phaseRank a.1 ≤ phaseRank b.1) :=
    fun c n => by
      rw [List.pairwise_map]
      exact pairwise_of_forall (fun a b => le_rfl) _
  have hsegb : ∀ (c : PhaseTag) (n k : Nat), phaseRank c ≤ k →
      ∀ a ∈ (List.range n).map (fun i => (c, i)), phaseRank a.1 ≤ k := by
    intro c n k hck a ha
    rw [mem_segment_fst ha]
    exact hck
  have hsegb' : ∀ (c : PhaseTag) (n k : Nat), k ≤ phaseRank c →
      ∀ a ∈ (List.range n).map (fun i => (c, i)), k ≤ phaseRank a.1 := by
    intro c n k hck a ha
    rw [mem_segment_fst ha]
    exact hck
  unfold stepSchedule
  refine pairwise_rank_append (k := 5)
    (pairwise_rank_append (k := 4)
      (pairwise_rank_append (k := 3)
        (pairwise_rank_append (k := 2)
          (pairwise_rank_append (k := 1)
            (htriv _ _) (htriv _ _) (hsegb _ _ _ ?_) (hsegb' _ _ _ ?_))
          (htriv _ _) ?_ (hsegb' _ _ _ ?_))
        (htriv _ _) ?_ (hsegb' _ _ _ ?_))
      (htriv _ _) ?_ (hsegb' _ _ _ ?_))
    (htriv _ _) ?_ (hsegb' _ _ _ ?_)
  · simp [phaseRank]
  · simp [phaseRank]
  · exact mem_append_rank_le (hsegb _ _ _ (by simp [phaseRank]))
      (hsegb _ _ _ (by simp [phaseRank]))
  · simp [phaseRank]
  · exact mem_append_rank_le
      (mem_append_rank_le (hsegb _ _ _ (by simp [phaseRank]))
        (hsegb _ _ _ (by simp [phaseRank])))
      (hsegb _ _ _ (by simp [phaseRank]))
  · simp [phaseRank]
  · exact mem_append_rank_le
      (mem_append_rank_le
        (mem_append_rank_le (hsegb _ _ _ (by simp [phaseRank]))
          (hsegb _ _ _ (by simp [phaseRank])))
        (hsegb _ _ _ (by simp [phaseRank])))
      (hsegb _ _ _ (by simp [phaseRank]))
  · simp [phaseRank]
  · exact mem_append_rank_le
      (mem_append_rank_le
        (mem_append_rank_le
          (mem_append_rank_le (hsegb _ _ _ (by simp [phaseRank]))
            (hsegb _ _ _ (by simp [phaseRank])))
          (hsegb _ _ _ (by simp [phaseRank])))
        (hsegb _ _ _ (by simp [phaseRank])))
      (hsegb _ _ _ (by simp [phaseRank]))
  · simp [phaseRank]

/-- C5: a step schedule runs its phases in the fixed order (rank-monotone
along the schedule); in particular any promote invocation precedes any
absorb invocation, and any absorb invocation precedes any purge
invocation, whatever the numbers of inlets and outlets. -/
theorem step_phase_order (nIn nOut : Nat)
    (k l : Fin (stepSchedule nIn nOut).length) :
    (phaseRank ((stepSchedule nIn nOut).get k).1 <
        phaseRank ((stepSchedule nIn nOut).get l).1 → k < l)
    ∧ (((stepSchedule nIn nOut).get k).1 = PhaseTag.promote →
        ((stepSchedule nIn nOut).get l).1 = PhaseTag.absorb → k < l)
    ∧ (((stepSchedule nIn nOut).get k).1 = PhaseTag.absorb →
        ((stepSchedule nIn nOut).get l).1 = PhaseTag.purge → k < l) := by
  have hmain : phaseRank ((stepSchedule nIn nOut).get k).1 <
      phaseRank ((stepSchedule nIn nOut).get l).1 → k < l := by
    intro h
    rcases lt_trichotomy k l with hkl | hkl | hkl
    · exact hkl
    · rw [hkl] at h
      exact absurd h (lt_irrefl _)
    · have hord := List.pairwise_iff_get.mp (schedule_rank_pairwise nIn nOut) l k hkl
      exact absurd h (not_lt.mpr hord)
  refine ⟨hmain, fun hk hl => hmain ?_, fun hk hl => hmain ?_⟩
  · rw [hk, hl]
    simp [phaseRank]
  · rw [hk, hl]
    simp [phaseRank]

/-- C5 witness: with one inlet and one outlet, position 3 of the schedule is
the promote invocation, position 4 the absorb invocation, and the theorem
yields `3 < 4`. -/
theorem step_phase_order_witness :
    ((stepSchedule 1 1).get ⟨3, by decide⟩).1 = PhaseTag.promote
    ∧ ((stepSchedule 1 1).get ⟨4, by decide⟩).1 = PhaseTag.absorb
    ∧ (⟨3, by decide⟩ : Fin (stepSchedule 1 1).length) < ⟨4, by decide⟩ :=
  ⟨by decide, by decide,
   (step_phase_order 1 1 ⟨3, by decide⟩ ⟨4, by decide⟩).2.1 (by decide) (by decide)⟩

/-- C6: one `step()` conserves particles up to the explicit refill creations
and purge destructions — the post-step total plus the number destroyed
equals the pre-step total plus the number created, and the promote/absorb
phases on their own only move particles between collections. -/
theorem step_conservation (cfg : BMConfig) (s : SimState) :
    (totalCount (stepWithCounts cfg s).1 + (stepWithCounts cfg s).2.2 =
      totalCount s + (stepWithCounts cfg s).2.1)
    ∧ (∀ (zd : ZoneDescriptor) (i f : List Particle),
        (promote zd i f).1.length + (promote zd i f).2.length = i.length + f.length)
    ∧ (∀ (zd : ZoneDescriptor) (props : List PName) (f o : List Particle),
        (absorb zd props f o).1.length + (absorb zd props f o).2.length =
          f.length + o.length) := by
  refine ⟨?_, promote_length, absorb_length⟩
  have hr := refill_length cfg.inletCfg s.inletPa
  have hai := advance_length cfg.dt (refill cfg.inletCfg s.inletPa)
  have hao := advance_length cfg.dt s.outletPa
  have hp := promote_length cfg.inletZone
    (advance cfg.dt (refill cfg.inletCfg s.inletPa)) s.fluidPa
  have ha := absorb_length cfg.outletZone cfg.propsToCopy
    (promote cfg.inletZone (advance cfg.dt (refill cfg.inletCfg s.inletPa)) s.fluidPa).2
    (advance cfg.dt s.outletPa)
  have hpu : (purge cfg.outletZone
      (absorb cfg.outletZone cfg.propsToCopy
        (promote cfg.inletZone (advance cfg.dt (refill cfg.inletCfg s.inletPa)) s.fluidPa).2
        (advance cfg.dt s.outletPa)).2).length ≤
      (absorb cfg.outletZone cfg.propsToCopy
        (promote cfg.inletZone (advance cfg.dt (refill cfg.inletCfg s.inletPa)) s.fluidPa).2
        (advance cfg.dt s.outletPa)).2.length :=
    List.length_filter_le _ _
  simp only [stepWithCounts, totalCount]
  omega

/-! ### Sample particles for concrete instantiations -/

/-- A sample inlet particle deep past the inlet plane (`x = -2`, so
`d = 2`). -/
def inletPtDeep : Particle := ⟨-2, 1/2, 0, 1/4, 0, 0, 1/100, 3/20, 1, 0, 0, 0, 0⟩

/-- A sample inlet particle still inside the inlet zone (`x = -1/2`, so
`d = 1/2`). -/
def inletPtShallow : Particle := ⟨-1/2, 1/2, 0, 1/4, 0, 0, 1/100, 3/20, 1, 0, 0, 0, 0⟩

/-- A sample fluid particle past the outlet plane (`x = 3/2`, so `d = 1/2`),
carrying pressure `5`. -/
def fluidPtPast : Particle := ⟨3/2, 1/2, 0, 1/4, 0, 0, 1/100, 3/20, 1, 5, 0, 0, 0⟩

/-- A sample fluid particle before the outlet plane (`x = 1/2`, so
`d = -1/2`). -/
def fluidPtBefore : Particle := ⟨1/2, 1/2, 0, 1/4, 0, 0, 1/100, 3/20, 1, 5, 0, 0, 0⟩

/-- C1: on the example's inlet configuration (reference point `(0,0,0)`,
normal `(-1,0,0)`, so `d = -x`), `promote` moves an inlet particle into the
fluid collection exactly when `d ≥ depth`, it removes exactly those
particles from the inlet collection, and the transfer preserves position,
velocity, mass and smoothing length. -/
theorem inlet_promote_spec (depth : ℚ) (inletPa fluidPa : List Particle) :
    (∀ pos : Vec3, signedDistance (exampleInletZone depth) pos = -pos.x)
    ∧ (∀ pt ∈ inletPa, depth ≤ -pt.x →
        clearTransfer pt ∈ (promote (exampleInletZone depth) inletPa fluidPa).2
        ∧ pt ∉ (promote (exampleInletZone depth) inletPa fluidPa).1)
    ∧ (∀ pt ∈ inletPa, -pt.x < depth →
        pt ∈ (promote (exampleInletZone depth) inletPa fluidPa).1)
    ∧ (∀ pt ∈ (promote (exampleInletZone depth) inletPa fluidPa).1, -pt.x < depth)
    ∧ (∀ pt : Particle, (clearTransfer pt).x = pt.x ∧ (clearTransfer pt).y = pt.y
        ∧ (clearTransfer pt).z = pt.z ∧ (clearTransfer pt).u = pt.u
        ∧ (clearTransfer pt).v = pt.v ∧ (clearTransfer pt).w = pt.w
        ∧ (clearTransfer pt).m = pt.m ∧ (clearTransfer pt).h = pt.h) := by
  have hd : ∀ pt : Particle,
      promoteCond (exampleInletZone depth) pt = decide (depth ≤ -pt.x) := by
    intro pt
    rw [promoteCond, inlet_signedDistance]
    rfl
  refine ⟨fun pos => inlet_signedDistance depth pos, ?_, ?_, ?_,
    fun pt => ⟨rfl, rfl, rfl, rfl, rfl, rfl, rfl, rfl⟩⟩
  · intro pt hmem hdep
    constructor
    · simp only [promote, List.mem_append]
      exact Or.inr (List.mem_map_of_mem _
        (List.mem_filter.mpr ⟨hmem, by simp [hd, hdep]⟩))
    · intro hcon
      have hkeep := (List.mem_filter.mp hcon).2
      simp [hd] at hkeep
      exact absurd hdep (not_le.mpr hkeep)
  · intro pt hmem hlt
    exact List.mem_filter.mpr ⟨hmem, by simp [hd, not_le.mpr hlt]⟩
  · intro pt hmem
    have hkeep := (List.mem_filter.mp hmem).2
    simp [hd] at hkeep
    exact hkeep

/-- C1 witness: with `depth = 1`, the particle at `x = -2` (distance `2`)
is promoted — its cleared copy lands in the fluid collection — and it is
removed from the inlet collection. -/
theorem inlet_promote_spec_witness :
    inletPtDeep ∈ [inletPtDeep, inletPtShallow]
    ∧ (1 : ℚ) ≤ -inletPtDeep.x
    ∧ clearTransfer inletPtDeep ∈
        (promote (exampleInletZone 1) [inletPtDeep, inletPtShallow] []).2
    ∧ inletPtDeep ∉
        (promote (exampleInletZone 1) [inletPtDeep, inletPtShallow] []).1 :=
  have hmem : inletPtDeep ∈ [inletPtDeep, inletPtShallow] :=
    List.mem_cons_self _ _
  have hdep : (1 : ℚ) ≤ -inletPtDeep.x := by norm_num [inletPtDeep]
  ⟨hmem, hdep,
   ((inlet_promote_spec 1 [inletPtDeep, inletPtShallow] []).2.1
      inletPtDeep hmem hdep).1,
   ((inlet_promote_spec 1 [inletPtDeep, inletPtShallow] []).2.1
      inletPtDeep hmem hdep).2⟩

/-- C2: on the example's outlet configuration (reference point `(1,0,0)`,
normal `(1,0,0)`, so `d = x - 1`), `absorb` creates, for every monitored
fluid particle with `d ≥ 0`, a new outlet entry carrying the configured
property subset, and removes exactly those particles from the fluid
collection. -/
theorem outlet_absorb_spec (depth : ℚ) (props : List PName)
    (fluidPa outletPa : List Particle) :
    (∀ pos : Vec3, signedDistance (exampleOutletZone depth) pos = pos.x - 1)
    ∧ (∀ pt ∈ fluidPa, 0 ≤ pt.x - 1 →
        copyProps props pt ∈
          (absorb (exampleOutletZone depth) props fluidPa outletPa).2
        ∧ pt ∉ (absorb (exampleOutletZone depth) props fluidPa outletPa).1)
    ∧ (∀ pt ∈ fluidPa, pt.x - 1 < 0 →
        pt ∈ (absorb (exampleOutletZone depth) props fluidPa outletPa).1)
    ∧ (∀ pt ∈ (absorb (exampleOutletZone depth) props fluidPa outletPa).1,
        pt.x - 1 < 0) := by
  have hd : ∀ pt : Particle,
      absorbCond (exampleOutletZone depth) pt = decide (0 ≤ pt.x - 1) := by
    intro pt
    rw [absorbCond, outlet_signedDistance]
    rfl
  refine ⟨fun pos => outlet_signedDistance depth pos, ?_, ?_, ?_⟩
  · intro pt hmem hdep
    constructor
    · simp only [absorb, List.mem_append]
      exact Or.inr (List.mem_map_of_mem _
        (List.mem_filter.mpr ⟨hmem, by simp [hd, hdep]⟩))
    · intro hcon
      have hkeep := (List.mem_filter.mp hcon).2
      simp [hd] at hkeep
      linarith
  · intro pt hmem hlt
    refine List.mem_filter.mpr ⟨hmem, ?_⟩
    simp [hd]
    linarith
  · intro pt hmem
    have hkeep := (List.mem_filter.mp hmem).2
    simp [hd] at hkeep
    linarith

/-- C2 witness: with `depth = 1` and the example's copy list, the fluid
particle at `x = 3/2` (distance `1/2 ≥ 0`) gets its copied entry in the
outlet collection and is removed from the fluid collection. -/
theorem outlet_absorb_spec_witness :
    fluidPtPast ∈ [fluidPtBefore, fluidPtPast]
    ∧ (0 : ℚ) ≤ fluidPtPast.x - 1
    ∧ copyProps examplePropsToCopy fluidPtPast ∈
        (absorb (exampleOutletZone 1) examplePropsToCopy
          [fluidPtBefore, fluidPtPast] []).2
    ∧ fluidPtPast ∉
        (absorb (exampleOutletZone 1) examplePropsToCopy
          [fluidPtBefore, fluidPtPast] []).1 :=
  have hmem : fluidPtPast ∈ [fluidPtBefore, fluidPtPast] := by
    simp [List.mem_cons]
  have hdep : (0 : ℚ) ≤ fluidPtPast.x - 1 := by norm_num [fluidPtPast]
  ⟨hmem, hdep,
   ((outlet_absorb_spec 1 examplePropsToCopy [fluidPtBefore, fluidPtPast] []).2.1
      fluidPtPast hmem hdep).1,
   ((outlet_absorb_spec 1 examplePropsToCopy [fluidPtBefore, fluidPtPast] []).2.1
      fluidPtPast hmem hdep).2⟩

/-- C8 witness: on a concrete two-particle inlet collection, equal inputs
give equal `promote` output and the promoted particles form a sublist of
the inlet collection. -/
theorem promote_order_stable_witness :
    promote (exampleInletZone 1) [inletPtDeep, inletPtShallow] [] =
      promote (exampleInletZone 1) [inletPtDeep, inletPtShallow] []
    ∧ ([inletPtDeep, inletPtShallow].filter
        (promoteCond (exampleInletZone 1))).Sublist [inletPtDeep, inletPtShallow] :=
  ⟨(promote_order_stable (exampleInletZone 1) [inletPtDeep, inletPtShallow] []).2.2
      [inletPtDeep, inletPtShallow] [] rfl rfl,
   (promote_order_stable (exampleInletZone 1) [inletPtDeep, inletPtShallow] []).1⟩

/-! ### The initial grid -/

/-- The inlet x-grid has ten entries: `⌈0.95 / 0.1⌉ = 10`. -/
lemma inletXs_ceil : (⌈((0 : ℚ) - (-1 + dxSpacing / 2)) / dxSpacing⌉).toNat = 10 := by
  have h : (⌈((0 : ℚ) - (-1 + dxSpacing / 2)) / dxSpacing⌉) = 10 := by
    rw [Int.ceil_eq_iff]
    constructor <;> norm_num [dxSpacing]
  rw [h]
  rfl

/-- The inlet y-grid has ten entries: `⌈1 / 0.1⌉ = 10`. -/
lemma inletYs_ceil : (⌈((1 : ℚ) - 0) / dxSpacing⌉).toNat = 10 := by
  have h : (⌈((1 : ℚ) - 0) / dxSpacing⌉) = 10 := by
    rw [Int.ceil_eq_iff]
    constructor <;> norm_num [dxSpacing]
  rw [h]
  rfl

/-- Membership in the inlet x-grid: the values `-1 + dx/2 + i*dx`,
`0 ≤ i < 10`. -/
lemma mem_inletXs {xv : ℚ} :
    xv ∈ inletXs ↔ ∃ i : ℕ, i < 10 ∧ -1 + dxSpacing / 2 + i * dxSpacing = xv := by
  unfold inletXs arangeQ
  rw [inletXs_ceil]
  constructor
  · intro h
    obtain ⟨i, hi, hieq⟩ := List.mem_map.mp h
    exact ⟨i, List.mem_range.mp hi, hieq⟩
  · rintro ⟨i, hi, hieq⟩
    exact List.mem_map.mpr ⟨i, List.mem_range.mpr hi, hieq⟩

/-- Membership in the inlet y-grid: the values `j*dx`, `0 ≤ j < 10`. -/
lemma mem_inletYs {yv : ℚ} :
    yv ∈ inletYs ↔ ∃ j : ℕ, j < 10 ∧ 0 + j * dxSpacing = yv := by
  unfold inletYs arangeQ
  rw [inletYs_ceil]
  constructor
  · intro h
    obtain ⟨j, hj, hjeq⟩ := List.mem_map.mp h
    exact ⟨j, List.mem_range.mp hj, hjeq⟩
  · rintro ⟨j, hj, hjeq⟩
    exact List.mem_map.mpr ⟨j, List.mem_range.mpr hj, hjeq⟩

/-- Membership in the inlet grid: an x-grid value paired with a y-grid value
at `z = 0`. -/
lemma mem_inletPositions {pos : Vec3} :
    pos ∈ inletPositions ↔
      ∃ xv ∈ inletXs, ∃ yv ∈ inletYs, Vec3.mk xv yv 0 = pos := by
  unfold inletPositions
  constructor
  · intro h
    obtain ⟨xv, hxv, h2⟩ := List.mem_flatMap.mp h
    obtain ⟨yv, hyv, h3⟩ := List.mem_map.mp h2
    exact ⟨xv, hxv, yv, hyv, h3⟩
  · rintro ⟨xv, hxv, yv, hyv, h3⟩
    exact List.mem_flatMap.mpr ⟨xv, hxv, List.mem_map.mpr ⟨yv, hyv, h3⟩⟩

/-- The inlet x-grid has ten values. -/
lemma inletXs_length : inletXs.length = 10 := by
  unfold inletXs arangeQ
  rw [List.length_map, List.length_range, inletXs_ceil]

/-- The inlet y-grid has ten values. -/
lemma inletYs_length : inletYs.length = 10 := by
  unfold inletYs arangeQ
  rw [List.length_map, List.length_range, inletYs_ceil]

/-- The inlet grid holds `10 × 10 = 100` positions. -/
lemma inletPositions_length : inletPositions.length = 100 := by
  unfold inletPositions
  rw [List.length_flatMap]
  have hmap : List.map (List.length ∘ fun xv => List.map (fun yv => Vec3.mk xv yv 0) inletYs)
      inletXs = List.replicate 10 10 := by
    rw [List.eq_replicate_iff]
    refine ⟨by rw [List.length_map, inletXs_length], ?_⟩
    intro b hb
    obtain ⟨xv, _, hxeq⟩ := List.mem_map.mp hb
    rw [← hxeq]
    simp [Function.comp_def, inletYs_length]
  rw [hmap, List.sum_replicate]
  rfl

/-- The outlet grid holds 100 positions as well. -/
lemma outletPositions_length : outletPositions.length = 100 := by
  simp [outletPositions, inletPositions_length]

/-- C3: every initially created inlet particle position (the grid
`x ∈ {-1+dx/2, …, -dx/2}`, `y ∈ {0, …, 1-dx}` with `dx = 0.1`) has signed
distance `d = -x` from the configured inlet plane with `0 ≤ d < 1`: it lies
inside the inlet zone under the spec's membership rule. -/
theorem inlet_grid_inside_zone (pos : Vec3) (hmem : pos ∈ inletPositions) :
    signedDistance (exampleInletZone 1) pos = -pos.x
    ∧ 0 ≤ signedDistance (exampleInletZone 1) pos
    ∧ signedDistance (exampleInletZone 1) pos < 1
    ∧ isInside (exampleInletZone 1) pos = true := by
  obtain ⟨xv, hxv, yv, hyv, rfl⟩ := mem_inletPositions.mp hmem
  obtain ⟨i, hi, hxeq⟩ := mem_inletXs.mp hxv
  subst hxeq
  have hic : (i : ℚ) ≤ 9 := by exact_mod_cast Nat.lt_succ_iff.mp hi
  have hic0 : (0 : ℚ) ≤ (i : ℚ) := Nat.cast_nonneg i
  have hd := inlet_signedDistance 1 (Vec3.mk (-1 + dxSpacing / 2 + i * dxSpacing) yv 0)
  have hx : (Vec3.mk (-1 + dxSpacing / 2 + i * dxSpacing) yv 0).x =
      -1 + dxSpacing / 2 + i * dxSpacing := rfl
  have h0 : (0 : ℚ) ≤ -(-1 + dxSpacing / 2 + i * dxSpacing) := by
    rw [dxSpacing] at *
    linarith
  have h1 : -(-1 + dxSpacing / 2 + i * dxSpacing) < 1 := by
    rw [dxSpacing] at *
    linarith
  refine ⟨hd, ?_, ?_, ?_⟩
  · rw [hd, hx]
    exact h0
  · rw [hd, hx]
    exact h1
  · rw [isInside, hd, hx]
    simp only [Bool.and_eq_true, decide_eq_true_eq]
    exact ⟨h0, h1⟩

/-- C3 witness: the grid corner `(-19/20, 0, 0)` is an initial inlet
position, and its distance from the inlet plane lies in `[0, 1)`. -/
theorem inlet_grid_inside_zone_witness :
    (Vec3.mk (-19/20) 0 0) ∈ inletPositions
    ∧ 0 ≤ signedDistance (exampleInletZone 1) (Vec3.mk (-19/20) 0 0)
    ∧ signedDistance (exampleInletZone 1) (Vec3.mk (-19/20) 0 0) < 1 := by
  have hmem : (Vec3.mk (-19/20) 0 0) ∈ inletPositions := by
    rw [mem_inletPositions]
    refine ⟨-19/20, ?_, 0, ?_, rfl⟩
    · rw [mem_inletXs]
      exact ⟨0, by norm_num, by norm_num [dxSpacing]⟩
    · rw [mem_inletYs]
      exact ⟨0, by norm_num, by norm_num [dxSpacing]⟩
  exact ⟨hmem, (inlet_grid_inside_zone _ hmem).2.1,
    (inlet_grid_inside_zone _ hmem).2.2.1⟩

/-- C9: `create_particles` returns exactly the three arrays
`[inlet, fluid, outlet]`, with 100 particles on each of the inlet and outlet
grids and zero fluid particles — at `t = 0` every particle belongs to the
inlet or outlet array. -/
theorem create_particles_structure (speed : ℚ) :
    (create_particles speed).map ParticleArray.pname = ["inlet", "fluid", "outlet"]
    ∧ (create_particles speed).length = 3
    ∧ (create_particles speed).map (fun pa => pa.particles.length) = [100, 0, 100] := by
  refine ⟨?_, ?_, ?_⟩ <;>
    simp [create_particles, extraProps, addProperty, get_particle_array, defaultProps,
      inletPositions_length, outletPositions_length]

/-- C10: after `create_particles`, each of the three returned arrays carries
the extra property columns `ioid`, `disp` and `x0` in its schema. -/
theorem create_particles_extra_props (speed : ℚ) (pa : ParticleArray)
    (hmem : pa ∈ create_particles speed) :
    PName.ioid ∈ pa.props ∧ PName.disp ∈ pa.props ∧ PName.x0 ∈ pa.props := by
  simp only [create_particles, extraProps, addProperty, get_particle_array,
    defaultProps, List.foldl_cons, List.foldl_nil, List.map_cons, List.map_nil,
    List.mem_cons, List.not_mem_nil, or_false] at hmem
  rcases hmem with h | h | h <;> subst h <;> exact ⟨by simp, by simp, by simp⟩

/-- C10 witness: the first returned array (the inlet array, at the default
speed `1/4`) carries all three extra columns. -/
theorem create_particles_extra_props_witness :
    PName.ioid ∈ ((create_particles (1/4)).get ⟨0, by decide⟩).props
    ∧ PName.disp ∈ ((create_particles (1/4)).get ⟨0, by decide⟩).props
    ∧ PName.x0 ∈ ((create_particles (1/4)).get ⟨0, by decide⟩).props :=
  create_particles_extra_props (1/4) _ (List.get_mem _ _ _)

end PySph
